import Mathlib

/-!
Verification development for the `modbus-core` repository: a shallow
embedding of the PDU codec (`src/codec/mod.rs`), the payload views
(`src/frame/coils.rs`, `src/frame/data.rs`, `src/frame/mod.rs`), the RTU
framer (`src/codec/rtu/mod.rs`) with its client/server facades, and the
TCP framer entry points needed by the claims (`src/codec/tcp/*.rs`).

Byte buffers are modelled as `List Nat` whose elements stand for `u8`
values; 16-bit reads and writes are spelled out big-endian with explicit
`% 256` / `% 65536` where the Rust code truncates (`as u8`, `as u16`).
Fallible Rust functions returning `Result<T, Error>` become `Except Err`;
functions that can additionally hit a Rust panic (out-of-bounds indexing,
`unreachable!`, `todo!`, `unimplemented!`) return `Outcome`, whose `fatal`
constructor marks the panic.

The snapshot enables the `rtu` cargo feature (the RTU codec and the
RTU-only function codes are part of the claims), so the feature-gated
enum variants are included.
-/

set_option maxRecDepth 8192

deriving instance DecidableEq for Except

/-- The `Error` enum of `src/error.rs`. -/
inductive Err where
  | CoilValue (value : Nat)
  | BufferSize
  | FnCode (code : Nat)
  | ExceptionCode (code : Nat)
  | ExceptionFnCode (code : Nat)
  | Crc (expected actual : Nat)
  | ByteCount (count : Nat)
  | LengthMismatch (lengthField pduLen : Nat)
  | ProtocolNotModbus (protocolId : Nat)
  | QuantityBytesMismatch (quantity : Nat) (bytes : Nat) (bytesExpected : Nat)
deriving DecidableEq

/-- Result of a fallible Rust operation: `ok`, a returned `Error`, or
`fatal`, which models a Rust panic (out-of-bounds indexing or slicing,
`unreachable!`, `todo!`, `unimplemented!`). -/
inductive Outcome (α : Type) where
  | ok : α → Outcome α
  | err : Err → Outcome α
  | fatal : Outcome α
deriving DecidableEq

/-- `BigEndian::read_u16(&bytes[i..])`, in-bounds uses only. -/
def readU16 (bytes : List Nat) (i : Nat) : Nat :=
  bytes.getD i 0 * 256 + bytes.getD (i + 1) 0

/-- Write the byte sequence `vs` into `buf` starting at index `i`
(models consecutive `buf[idx] = v` stores). -/
def writeBytes : List Nat → Nat → List Nat → List Nat
  | buf, _, [] => buf
  | buf, i, v :: vs => writeBytes (buf.set i v) (i + 1) vs

/-- `BigEndian::write_u16(&mut buf[i..], v)`: the two big-endian bytes of
`v` truncated to 16 bits. -/
def writeU16 (buf : List Nat) (i v : Nat) : List Nat :=
  (buf.set i (v / 256 % 256)).set (i + 1) (v % 256)

/-- `FunctionCode` from `src/frame/mod.rs`, with the `rtu`-feature
variants included. -/
inductive FunctionCode where
  | ReadCoils
  | ReadDiscreteInputs
  | WriteSingleCoil
  | WriteSingleRegister
  | ReadHoldingRegisters
  | ReadInputRegisters
  | WriteMultipleCoils
  | WriteMultipleRegisters
  | MaskWriteRegister
  | ReadWriteMultipleRegisters
  | ReadExceptionStatus
  | Diagnostics
  | GetCommEventCounter
  | GetCommEventLog
  | ReportServerId
  | Custom (code : Nat)
deriving DecidableEq

/-- `FunctionCode::new` (`src/frame/mod.rs`). -/
def FunctionCode.new (value : Nat) : FunctionCode :=
  match value with
  | 0x01 => .ReadCoils
  | 0x02 => .ReadDiscreteInputs
  | 0x05 => .WriteSingleCoil
  | 0x06 => .WriteSingleRegister
  | 0x03 => .ReadHoldingRegisters
  | 0x04 => .ReadInputRegisters
  | 0x0F => .WriteMultipleCoils
  | 0x10 => .WriteMultipleRegisters
  | 0x16 => .MaskWriteRegister
  | 0x17 => .ReadWriteMultipleRegisters
  | 0x07 => .ReadExceptionStatus
  | 0x08 => .Diagnostics
  | 0x0B => .GetCommEventCounter
  | 0x0C => .GetCommEventLog
  | 0x11 => .ReportServerId
  | code => .Custom code

/-- `FunctionCode::value` (`src/frame/mod.rs`). -/
def FunctionCode.value : FunctionCode → Nat
  | .ReadCoils => 0x01
  | .ReadDiscreteInputs => 0x02
  | .WriteSingleCoil => 0x05
  | .WriteSingleRegister => 0x06
  | .ReadHoldingRegisters => 0x03
  | .ReadInputRegisters => 0x04
  | .WriteMultipleCoils => 0x0F
  | .WriteMultipleRegisters => 0x10
  | .MaskWriteRegister => 0x16
  | .ReadWriteMultipleRegisters => 0x17
  | .ReadExceptionStatus => 0x07
  | .Diagnostics => 0x08
  | .GetCommEventCounter => 0x0B
  | .GetCommEventLog => 0x0C
  | .ReportServerId => 0x11
  | .Custom code => code

/-- The `Exception` enum of `src/frame/mod.rs`. -/
inductive Exception where
  | IllegalFunction
  | IllegalDataAddress
  | IllegalDataValue
  | ServerDeviceFailure
  | Acknowledge
  | ServerDeviceBusy
  | MemoryParityError
  | GatewayPathUnavailable
  | GatewayTargetDevice
deriving DecidableEq

/-- The discriminant values of `Exception` (used by `ex.exception as u8`). -/
def Exception.value : Exception → Nat
  | .IllegalFunction => 0x01
  | .IllegalDataAddress => 0x02
  | .IllegalDataValue => 0x03
  | .ServerDeviceFailure => 0x04
  | .Acknowledge => 0x05
  | .ServerDeviceBusy => 0x06
  | .MemoryParityError => 0x08
  | .GatewayPathUnavailable => 0x0A
  | .GatewayTargetDevice => 0x0B

/-- `impl TryFrom<u8> for Exception` (`src/codec/mod.rs`). -/
def Exception.tryFrom (code : Nat) : Except Err Exception :=
  match code with
  | 0x01 => .ok .IllegalFunction
  | 0x02 => .ok .IllegalDataAddress
  | 0x03 => .ok .IllegalDataValue
  | 0x04 => .ok .ServerDeviceFailure
  | 0x05 => .ok .Acknowledge
  | 0x06 => .ok .ServerDeviceBusy
  | 0x08 => .ok .MemoryParityError
  | 0x0A => .ok .GatewayPathUnavailable
  | 0x0B => .ok .GatewayTargetDevice
  | _ => .error (.ExceptionCode code)

/-- The zero-copy `Coils` view (`src/frame/coils.rs`): a byte slice plus a
declared coil count. The `CoilQuantity` wrapper struct is flattened to the
plain count it contains, matching the struct literals used throughout
`src/codec/mod.rs`. -/
structure Coils where
  data : List Nat
  quantity : Nat
deriving DecidableEq

/-- `CoilQuantity::packed_len`: `quantity.div_ceil(8)`. -/
def Coils.packedLen (c : Coils) : Nat := (c.quantity + 7) / 8

/-- `Coils::len`. -/
def Coils.len (c : Coils) : Nat := c.quantity

/-- `Coils::get`: `None` past the declared quantity, otherwise bit
`idx % 8` of byte `(idx as u16 / 8)` (the index is truncated to `u16`
before the division, as in the source; the in-bounds uses of the claims
never index outside `data`). -/
def Coils.get (c : Coils) (idx : Nat) : Option Bool :=
  if idx + 1 > c.quantity then none
  else some ((c.data.getD (idx % 65536 / 8) 0 >>> (idx % 8)) &&& 1 > 0)

/-- The `Data` view of big-endian words (`src/frame/data.rs`). -/
structure Data where
  data : List Nat
  quantity : Nat
deriving DecidableEq

/-- `Data::len`. -/
def Data.len (d : Data) : Nat := d.quantity

/-- `pack_coils` (`src/frame/coils.rs`), with the running `coil_count`
made explicit; the buffer is threaded through as state. The
`checked_add` overflow arm cannot fire for `Nat` counters and is
omitted. -/
def packCoilsFrom : List Bool → List Nat → Nat → Except Err (Nat × List Nat)
  | [], bytes, coilCount => .ok (coilCount, bytes)
  | coil :: rest, bytes, coilCount =>
    match bytes[coilCount / 8]? with
    | none => .error .BufferSize
    | some byte =>
      packCoilsFrom rest
        (bytes.set (coilCount / 8) (byte ||| ((if coil then 1 else 0) <<< (coilCount % 8))))
        (coilCount + 1)

/-- `pack_coils(coils, bytes)`: returns the packed coil count and the
updated buffer. -/
def pack_coils (coils : List Bool) (bytes : List Nat) : Except Err (Nat × List Nat) :=
  packCoilsFrom coils bytes 0

/-- `Coils::from_iter` / `Coils::from_bools` (`src/frame/coils.rs`). -/
def Coils.from_bools (bools : List Bool) (target : List Nat) : Except Err Coils :=
  match pack_coils bools target with
  | .error e => .error e
  | .ok (quantity, target) => .ok { data := target, quantity }

/-- `bool_to_u16_coil`. -/
def boolToU16Coil (state : Bool) : Nat := if state then 0xFF00 else 0x0000

/-- `u16_coil_to_bool`. -/
def u16CoilToBool (coil : Nat) : Except Err Bool :=
  if coil = 0xFF00 then .ok true
  else if coil = 0x0000 then .ok false
  else .error (.CoilValue coil)

/-- The `Request` enum of `src/frame/mod.rs` (with the `rtu` feature
variants). The `RequestPdu` newtype wrapper is transparent and is not
repeated here. -/
inductive Request where
  | ReadCoils (address quantity : Nat)
  | ReadDiscreteInputs (address quantity : Nat)
  | WriteSingleCoil (address : Nat) (state : Bool)
  | WriteMultipleCoils (address : Nat) (coils : Coils)
  | ReadInputRegisters (address quantity : Nat)
  | ReadHoldingRegisters (address quantity : Nat)
  | WriteSingleRegister (address word : Nat)
  | WriteMultipleRegisters (address : Nat) (words : Data)
  | ReadWriteMultipleRegisters (readAddress readQuantity writeAddress : Nat) (words : Data)
  | ReadExceptionStatus
  | Diagnostics (subFunction : Nat) (words : Data)
  | GetCommEventCounter
  | GetCommEventLog
  | ReportServerId
  | Custom (function : FunctionCode) (payload : List Nat)
deriving DecidableEq

/-- `impl From<Request> for FunctionCode` (`src/frame/mod.rs`). -/
def Request.functionCode : Request → FunctionCode
  | .ReadCoils _ _ => .ReadCoils
  | .ReadDiscreteInputs _ _ => .ReadDiscreteInputs
  | .WriteSingleCoil _ _ => .WriteSingleCoil
  | .WriteMultipleCoils _ _ => .WriteMultipleCoils
  | .ReadInputRegisters _ _ => .ReadInputRegisters
  | .ReadHoldingRegisters _ _ => .ReadHoldingRegisters
  | .WriteSingleRegister _ _ => .WriteSingleRegister
  | .WriteMultipleRegisters _ _ => .WriteMultipleRegisters
  | .ReadWriteMultipleRegisters _ _ _ _ => .ReadWriteMultipleRegisters
  | .ReadExceptionStatus => .ReadExceptionStatus
  | .Diagnostics _ _ => .Diagnostics
  | .GetCommEventCounter => .GetCommEventCounter
  | .GetCommEventLog => .GetCommEventLog
  | .ReportServerId => .ReportServerId
  | .Custom code _ => code

/-- `Request::pdu_len` (`src/frame/mod.rs`); `none` models the
`todo!()` panic of the `rtu`-feature catch-all arm. -/
def Request.pduLen : Request → Option Nat
  | .ReadCoils _ _ | .ReadDiscreteInputs _ _ | .ReadInputRegisters _ _
  | .ReadHoldingRegisters _ _ | .WriteSingleRegister _ _ | .WriteSingleCoil _ _ => some 5
  | .WriteMultipleCoils _ coils => some (6 + coils.packedLen)
  | .WriteMultipleRegisters _ words => some (6 + words.data.length)
  | .ReadWriteMultipleRegisters _ _ _ words => some (10 + words.data.length)
  | .Custom _ payload => some (1 + payload.length)
  | _ => none

/-- `min_request_pdu_len` (`src/codec/mod.rs`). -/
def minRequestPduLen (fnCode : FunctionCode) : Nat :=
  match fnCode with
  | .ReadCoils | .ReadDiscreteInputs | .ReadInputRegisters | .WriteSingleCoil
  | .ReadHoldingRegisters | .WriteSingleRegister => 5
  | .WriteMultipleCoils | .WriteMultipleRegisters => 6
  | .ReadWriteMultipleRegisters => 10
  | _ => 1

/-- `impl TryFrom<&[u8]> for Request` (`src/codec/mod.rs`). Note that the
`WriteMultipleCoils` arm takes `&bytes[6..]` — the whole tail — as the
coils data, while the register arms slice exactly `byte_count` bytes. -/
def Request.tryFrom (bytes : List Nat) : Except Err Request :=
  if bytes.length = 0 then .error .BufferSize
  else
    let fnCode := bytes.getD 0 0
    if bytes.length < minRequestPduLen (FunctionCode.new fnCode) then .error .BufferSize
    else
      match FunctionCode.new fnCode with
      | .ReadCoils => .ok (.ReadCoils (readU16 bytes 1) (readU16 bytes 3))
      | .ReadDiscreteInputs => .ok (.ReadDiscreteInputs (readU16 bytes 1) (readU16 bytes 3))
      | .ReadInputRegisters => .ok (.ReadInputRegisters (readU16 bytes 1) (readU16 bytes 3))
      | .ReadHoldingRegisters => .ok (.ReadHoldingRegisters (readU16 bytes 1) (readU16 bytes 3))
      | .WriteSingleRegister => .ok (.WriteSingleRegister (readU16 bytes 1) (readU16 bytes 3))
      | .WriteSingleCoil =>
        match u16CoilToBool (readU16 bytes 3) with
        | .ok state => .ok (.WriteSingleCoil (readU16 bytes 1) state)
        | .error e => .error e
      | .WriteMultipleCoils =>
        let address := readU16 bytes 1
        let quantity := readU16 bytes 3
        let byteCount := bytes.getD 5 0
        if bytes.length < 6 + byteCount then .error (.ByteCount byteCount)
        else .ok (.WriteMultipleCoils address { data := bytes.drop 6, quantity })
      | .WriteMultipleRegisters =>
        let address := readU16 bytes 1
        let quantity := readU16 bytes 3
        let byteCount := bytes.getD 5 0
        if bytes.length < 6 + byteCount then .error (.ByteCount byteCount)
        else .ok (.WriteMultipleRegisters address
          { data := (bytes.drop 6).take byteCount, quantity })
      | .ReadWriteMultipleRegisters =>
        let readAddress := readU16 bytes 1
        let readQuantity := readU16 bytes 3
        let writeAddress := readU16 bytes 5
        let writeQuantity := readU16 bytes 7
        let writeCount := bytes.getD 9 0
        if bytes.length < 10 + writeCount then .error (.ByteCount writeCount)
        else .ok (.ReadWriteMultipleRegisters readAddress readQuantity writeAddress
          { data := (bytes.drop 10).take writeCount, quantity := writeQuantity })
      | _ =>
        if fnCode < 0x80 then .ok (.Custom (.Custom fnCode) (bytes.drop 1))
        else .error (.FnCode fnCode)

/-- `impl Encode for Request` (`src/codec/mod.rs`): mutates the caller's
buffer and returns it with the written length. `fatal` models the
`todo!()` in `pdu_len`, the `panic!()` catch-all arm, and the
out-of-bounds read in `Coils::copy_to` when the view's `data` is shorter
than its `packed_len`. `as u8` / `as u16` casts truncate. -/
def Request.encode (r : Request) (buf : List Nat) : Outcome (List Nat × Nat) :=
  match r.pduLen with
  | none => .fatal
  | some pduLen =>
    if buf.length < pduLen then .err .BufferSize
    else
      let buf := buf.set 0 r.functionCode.value
      match r with
      | .ReadCoils address payload | .ReadDiscreteInputs address payload
      | .ReadInputRegisters address payload | .ReadHoldingRegisters address payload
      | .WriteSingleRegister address payload =>
        .ok (writeU16 (writeU16 buf 1 address) 3 payload, pduLen)
      | .WriteSingleCoil address state =>
        .ok (writeU16 (writeU16 buf 1 address) 3 (boolToU16Coil state), pduLen)
      | .WriteMultipleCoils address coils =>
        let buf := writeU16 buf 1 address
        let buf := writeU16 buf 3 coils.len
        let buf := buf.set 5 (coils.packedLen % 256)
        if coils.data.length < coils.packedLen then .fatal
        else .ok (writeBytes buf 6 (coils.data.take coils.packedLen), pduLen)
      | .WriteMultipleRegisters address words =>
        let buf := writeU16 buf 1 address
        let buf := writeU16 buf 3 words.len
        let buf := buf.set 5 (words.len % 256 * 2 % 256)
        .ok (writeBytes buf 6 words.data, pduLen)
      | .ReadWriteMultipleRegisters readAddress quantity writeAddress words =>
        let buf := writeU16 buf 1 readAddress
        let buf := writeU16 buf 3 quantity
        let buf := writeU16 buf 5 writeAddress
        let buf := writeU16 buf 7 words.len
        let buf := buf.set 9 (words.len % 256 * 2 % 256)
        .ok (writeBytes buf 10 words.data, pduLen)
      | .Custom _ payload => .ok (writeBytes buf 1 payload, pduLen)
      | _ => .fatal

/-- The `Response` enum. `src/frame/mod.rs` declares
`WriteSingleCoil(Address, Coil)`, but every use in `src/codec/mod.rs`
(decode, encode, and the tests) constructs and matches it with a single
address argument; the model follows that codec usage. The other variants
follow `src/frame/mod.rs` (with the `rtu`-feature variants). -/
inductive Response where
  | ReadCoils (coils : Coils)
  | ReadDiscreteInputs (coils : Coils)
  | WriteSingleCoil (address : Nat)
  | WriteMultipleCoils (address quantity : Nat)
  | ReadInputRegisters (words : Data)
  | ReadHoldingRegisters (words : Data)
  | WriteSingleRegister (address word : Nat)
  | WriteMultipleRegisters (address quantity : Nat)
  | ReadWriteMultipleRegisters (words : Data)
  | ReadExceptionStatus (code : Nat)
  | Diagnostics (words : Data)
  | GetCommEventCounter (status eventCount : Nat)
  | GetCommEventLog (status eventCount messageCount : Nat) (events : List Nat)
  | ReportServerId (payload : List Nat) (runIndicator : Bool)
  | Custom (function : FunctionCode) (payload : List Nat)
deriving DecidableEq

/-- `impl From<Response> for FunctionCode` (`src/frame/mod.rs`). -/
def Response.functionCode : Response → FunctionCode
  | .ReadCoils _ => .ReadCoils
  | .ReadDiscreteInputs _ => .ReadDiscreteInputs
  | .WriteSingleCoil _ => .WriteSingleCoil
  | .WriteMultipleCoils _ _ => .WriteMultipleCoils
  | .ReadInputRegisters _ => .ReadInputRegisters
  | .ReadHoldingRegisters _ => .ReadHoldingRegisters
  | .WriteSingleRegister _ _ => .WriteSingleRegister
  | .WriteMultipleRegisters _ _ => .WriteMultipleRegisters
  | .ReadWriteMultipleRegisters _ => .ReadWriteMultipleRegisters
  | .ReadExceptionStatus _ => .ReadExceptionStatus
  | .Diagnostics _ => .Diagnostics
  | .GetCommEventCounter _ _ => .GetCommEventCounter
  | .GetCommEventLog _ _ _ _ => .GetCommEventLog
  | .ReportServerId _ _ => .ReportServerId
  | .Custom code _ => code

/-- `Response::pdu_len` (`src/frame/mod.rs`). The `WriteSingleCoil` arm
returns 5 there (the two-field wire form); `none` models the
`unimplemented!()` catch-all arm. -/
def Response.pduLen : Response → Option Nat
  | .ReadCoils coils | .ReadDiscreteInputs coils => some (2 + coils.packedLen)
  | .WriteSingleCoil _ => some 5
  | .WriteMultipleCoils _ _ | .WriteMultipleRegisters _ _
  | .WriteSingleRegister _ _ => some 5
  | .ReadInputRegisters words | .ReadHoldingRegisters words
  | .ReadWriteMultipleRegisters words => some (2 + words.len * 2)
  | .Custom _ payload => some (1 + payload.length)
  | .ReadExceptionStatus _ => some 2
  | _ => none

/-- `min_response_pdu_len` (`src/codec/mod.rs`). -/
def minResponsePduLen (fnCode : FunctionCode) : Nat :=
  match fnCode with
  | .ReadCoils | .ReadDiscreteInputs | .ReadInputRegisters
  | .ReadHoldingRegisters | .ReadWriteMultipleRegisters => 2
  | .WriteSingleCoil => 3
  | .WriteMultipleCoils | .WriteSingleRegister | .WriteMultipleRegisters => 5
  | _ => 1

/-- `impl TryFrom<&[u8]> for Response` (`src/codec/mod.rs`). -/
def Response.tryFrom (bytes : List Nat) : Except Err Response :=
  if bytes.length = 0 then .error .BufferSize
  else
    let fnCode := bytes.getD 0 0
    if bytes.length < minResponsePduLen (FunctionCode.new fnCode) then .error .BufferSize
    else
      match FunctionCode.new fnCode with
      | .ReadCoils =>
        let byteCount := bytes.getD 1 0
        if byteCount + 2 > bytes.length then .error .BufferSize
        else .ok (.ReadCoils { data := (bytes.drop 2).take byteCount, quantity := byteCount * 8 })
      | .ReadDiscreteInputs =>
        let byteCount := bytes.getD 1 0
        if byteCount + 2 > bytes.length then .error .BufferSize
        else .ok (.ReadDiscreteInputs
          { data := (bytes.drop 2).take byteCount, quantity := byteCount * 8 })
      | .WriteSingleCoil => .ok (.WriteSingleCoil (readU16 bytes 1))
      | .WriteMultipleCoils => .ok (.WriteMultipleCoils (readU16 bytes 1) (readU16 bytes 3))
      | .WriteSingleRegister => .ok (.WriteSingleRegister (readU16 bytes 1) (readU16 bytes 3))
      | .WriteMultipleRegisters => .ok (.WriteMultipleRegisters (readU16 bytes 1) (readU16 bytes 3))
      | .ReadInputRegisters =>
        let byteCount := bytes.getD 1 0
        if byteCount + 2 > bytes.length then .error .BufferSize
        else .ok (.ReadInputRegisters
          { data := (bytes.drop 2).take byteCount, quantity := byteCount / 2 })
      | .ReadHoldingRegisters =>
        let byteCount := bytes.getD 1 0
        if byteCount + 2 > bytes.length then .error .BufferSize
        else .ok (.ReadHoldingRegisters
          { data := (bytes.drop 2).take byteCount, quantity := byteCount / 2 })
      | .ReadWriteMultipleRegisters =>
        let byteCount := bytes.getD 1 0
        if byteCount + 2 > bytes.length then .error .BufferSize
        else .ok (.ReadWriteMultipleRegisters
          { data := (bytes.drop 2).take byteCount, quantity := byteCount / 2 })
      | _ => .ok (.Custom (FunctionCode.new fnCode) (bytes.drop 1))

/-- `impl Encode for Response` (`src/codec/mod.rs`), with
`Response::pdu_len` from `src/frame/mod.rs` for the buffer check and the
returned length. `fatal` models `unimplemented!()` and the out-of-bounds
reads of `copy_to` on a view whose `data` is shorter than declared. -/
def Response.encode (r : Response) (buf : List Nat) : Outcome (List Nat × Nat) :=
  match r.pduLen with
  | none => .fatal
  | some pduLen =>
    if buf.length < pduLen then .err .BufferSize
    else
      let buf := buf.set 0 r.functionCode.value
      match r with
      | .ReadCoils coils | .ReadDiscreteInputs coils =>
        let buf := buf.set 1 (coils.packedLen % 256)
        if coils.data.length < coils.packedLen then .fatal
        else .ok (writeBytes buf 2 (coils.data.take coils.packedLen), pduLen)
      | .ReadInputRegisters words | .ReadHoldingRegisters words
      | .ReadWriteMultipleRegisters words =>
        let buf := buf.set 1 (words.len * 2 % 256)
        if words.data.length < words.len * 2 then .fatal
        else .ok (writeBytes buf 2 (words.data.take (words.len * 2)), pduLen)
      | .WriteSingleCoil address => .ok (writeU16 buf 1 address, pduLen)
      | .WriteMultipleCoils address payload | .WriteMultipleRegisters address payload
      | .WriteSingleRegister address payload =>
        .ok (writeU16 (writeU16 buf 1 address) 3 payload, pduLen)
      | .Custom _ payload => .ok (writeBytes buf 1 payload, pduLen)
      | .ReadExceptionStatus code => .ok (buf.set 1 code, pduLen)
      | _ => .fatal

/-- `ExceptionResponse` (`src/frame/mod.rs`). -/
structure ExceptionResponse where
  function : FunctionCode
  exception : Exception
deriving DecidableEq

/-- `impl TryFrom<&[u8]> for ExceptionResponse` (`src/codec/mod.rs`);
reading `bytes[1]` on a one-byte slice is an out-of-bounds panic
(`fatal`). -/
def ExceptionResponse.tryFrom (bytes : List Nat) : Outcome ExceptionResponse :=
  if bytes.length = 0 then .err .BufferSize
  else
    let fnErrCode := bytes.getD 0 0
    if fnErrCode < 0x80 then .err (.ExceptionFnCode fnErrCode)
    else
      match bytes[1]? with
      | none => .fatal
      | some code =>
        match Exception.tryFrom code with
        | .ok exception => .ok { function := FunctionCode.new (fnErrCode - 0x80), exception }
        | .error e => .err e

/-- `impl Encode for ExceptionResponse` (`src/codec/mod.rs`), via
`From<ExceptionResponse> for [u8; 2]`: only emptiness is checked, so a
one-byte buffer panics on the second store; the `u8` addition wraps. -/
def ExceptionResponse.encode (e : ExceptionResponse) (buf : List Nat) :
    Outcome (List Nat × Nat) :=
  if buf.length = 0 then .err .BufferSize
  else
    let buf := buf.set 0 ((e.function.value + 0x80) % 256)
    if buf.length < 2 then .fatal
    else .ok (buf.set 1 e.exception.value, 2)

/-- `ResponsePdu` (`src/frame/mod.rs`): `Result<Response, ExceptionResponse>`. -/
inductive ResponsePdu where
  | ok (response : Response)
  | ex (exception : ExceptionResponse)
deriving DecidableEq

/-- `impl Encode for ResponsePdu` (`src/codec/mod.rs`). -/
def ResponsePdu.encode (p : ResponsePdu) (buf : List Nat) : Outcome (List Nat × Nat) :=
  if buf.length = 0 then .err .BufferSize
  else
    match p with
    | .ok r => r.encode buf
    | .ex e => e.encode buf

/-- The PDU step of the client response facades
(`src/codec/rtu/client.rs`, `src/codec/tcp/client.rs`): try
`ExceptionResponse::try_from` first, fall back to `Response::try_from`. -/
def decodeResponsePdu (pdu : List Nat) : Outcome ResponsePdu :=
  match ExceptionResponse.tryFrom pdu with
  | .ok er => .ok (.ex er)
  | .fatal => .fatal
  | .err _ =>
    match Response.tryFrom pdu with
    | .ok r => .ok (.ok r)
    | .error e => .err e

/-- `DecoderType` (`src/codec/mod.rs`). -/
inductive DecoderType where
  | Request
  | Response
deriving DecidableEq

/-- `MAX_FRAME_LEN` (`src/codec/rtu/mod.rs`). -/
def MAX_FRAME_LEN : Nat := 256

/-- An extracted RTU frame (`src/codec/rtu/mod.rs`). -/
structure DecodedFrame where
  slave : Nat
  pdu : List Nat
deriving DecidableEq

/-- `FrameLocation` (`src/codec/rtu/mod.rs`). -/
structure FrameLocation where
  start : Nat
  size : Nat
deriving DecidableEq

/-- One step of the Modbus CRC-16 shift loop: shift right once, XOR-ing
in the polynomial `0xA001` when the low bit was set. -/
def crcRound (crc : Nat) : Nat :=
  if crc &&& 0x0001 ≠ 0 then (crc >>> 1) ^^^ 0xA001 else crc >>> 1

/-- Fold one input byte into the CRC accumulator: XOR it in (a `u8`, so
reduced mod 256) and run eight shift rounds. -/
def crcByte (crc b : Nat) : Nat :=
  crcRound (crcRound (crcRound (crcRound
    (crcRound (crcRound (crcRound (crcRound (crc ^^^ b % 256))))))))

/-- `crc16` (`src/codec/rtu/mod.rs`): seed `0xFFFF`, per-byte shift loop,
and a final `rotate_right(8)` byte swap of the 16-bit accumulator. -/
def crc16 (data : List Nat) : Nat :=
  let crc := data.foldl crcByte 0xFFFF
  crc % 256 * 256 + crc / 256

/-- `crc16` (`src/rtu.rs`): same accumulator, byte swap written as
`crc << 8 | crc >> 8` on `u16`. -/
def crc16Legacy (data : List Nat) : Nat :=
  let crc := data.foldl crcByte 0xFFFF
  (crc <<< 8) % 65536 ||| crc >>> 8

/-- `extract_frame` (`src/codec/rtu/mod.rs`): check the trailing CRC and
split off the slave id; `Ok None` on an incomplete buffer. -/
def extractFrame (buf : List Nat) (pduLen : Nat) : Except Err (Option DecodedFrame) :=
  if buf.length = 0 then .error .BufferSize
  else
    let aduLen := 1 + pduLen
    if aduLen + 2 ≤ buf.length then
      let aduBuf := buf.take aduLen
      let expectedCrc := readU16 buf aduLen
      let actualCrc := crc16 aduBuf
      if expectedCrc ≠ actualCrc then .error (.Crc expectedCrc actualCrc)
      else .ok (some { slave := buf.getD 0 0, pdu := aduBuf.drop 1 })
    else .ok none

/-- `request_pdu_len` (`src/codec/rtu/mod.rs`). -/
def rtuRequestPduLen (aduBuf : List Nat) : Except Err (Option Nat) :=
  if aduBuf.length < 2 then .ok none
  else
    let fnCode := aduBuf.getD 1 0
    if 0x01 ≤ fnCode ∧ fnCode ≤ 0x06 then .ok (some 5)
    else if fnCode = 0x07 ∨ fnCode = 0x0B ∨ fnCode = 0x0C ∨ fnCode = 0x11 then .ok (some 1)
    else if fnCode = 0x0F ∨ fnCode = 0x10 then
      if aduBuf.length > 4 then .ok (some (6 + aduBuf.getD 4 0)) else .ok none
    else if fnCode = 0x16 then .ok (some 7)
    else if fnCode = 0x18 then .ok (some 3)
    else if fnCode = 0x17 then
      if aduBuf.length > 10 then .ok (some (10 + aduBuf.getD 10 0)) else .ok none
    else .error (.FnCode fnCode)

/-- `response_pdu_len` (`src/codec/rtu/mod.rs`). -/
def rtuResponsePduLen (aduBuf : List Nat) : Except Err (Option Nat) :=
  if aduBuf.length < 2 then .ok none
  else
    let fnCode := aduBuf.getD 1 0
    if (0x01 ≤ fnCode ∧ fnCode ≤ 0x04) ∨ fnCode = 0x0C ∨ fnCode = 0x17 then
      if aduBuf.length > 2 then .ok (some (2 + aduBuf.getD 2 0)) else .ok none
    else if fnCode = 0x05 ∨ fnCode = 0x06 ∨ fnCode = 0x0B ∨ fnCode = 0x0F ∨ fnCode = 0x10 then
      .ok (some 5)
    else if fnCode = 0x07 ∨ (0x81 ≤ fnCode ∧ fnCode ≤ 0xAB) then .ok (some 2)
    else if fnCode = 0x16 then .ok (some 7)
    else if fnCode = 0x18 then
      if aduBuf.length > 3 then .ok (some (3 + readU16 aduBuf 2)) else .ok none
    else .error (.FnCode fnCode)

/-- The per-kind PDU-length dispatch of `decode` (`src/codec/rtu/mod.rs`). -/
def rtuPduLen : DecoderType → List Nat → Except Err (Option Nat)
  | .Request, aduBuf => rtuRequestPduLen aduBuf
  | .Response, aduBuf => rtuResponsePduLen aduBuf

/-- One pass of the RTU `decode` loop body at a given drop count:
predict the PDU length on `buf[drop_cnt..]` and extract the frame. -/
def decodeStep (decoderType : DecoderType) (buf : List Nat) (dropCnt : Nat) :
    Except Err (Option (DecodedFrame × FrameLocation)) :=
  let rawFrame := buf.drop dropCnt
  match rtuPduLen decoderType rawFrame with
  | .error e => .error e
  | .ok none => .ok none
  | .ok (some pduLen) =>
    match extractFrame rawFrame pduLen with
    | .error e => .error e
    | .ok none => .ok none
    | .ok (some frame) => .ok (some (frame, { start := dropCnt, size := pduLen + 3 }))

/-- The `loop` of RTU `decode` (`src/codec/rtu/mod.rs`). The Rust loop
terminates because `drop_cnt` strictly increases and is bounded by
`buf.len()`; the `fuel` argument makes that measure explicit. When the
fuel is at least `buf.length - dropCnt` the zero-fuel branch coincides
with the `drop_cnt + 1 >= buf.len()` early return, so `fuel = buf.length`
at entry reproduces the loop exactly. -/
def decodeLoop (decoderType : DecoderType) (buf : List Nat) :
    Nat → Nat → Except Err (Option (DecodedFrame × FrameLocation))
  | _, 0 => .ok none
  | dropCnt, fuel + 1 =>
    if dropCnt + 1 ≥ buf.length then .ok none
    else
      match decodeStep decoderType buf dropCnt with
      | .ok v => .ok v
      | .error e =>
        if dropCnt + 1 ≥ MAX_FRAME_LEN then .error e
        else decodeLoop decoderType buf (dropCnt + 1) fuel

/-- RTU `decode` (`src/codec/rtu/mod.rs`). -/
def rtuDecode (decoderType : DecoderType) (buf : List Nat) :
    Except Err (Option (DecodedFrame × FrameLocation)) :=
  if buf.length = 0 then .error .BufferSize
  else decodeLoop decoderType buf 0 buf.length

/-- RTU `Header` (`src/frame/rtu.rs`). -/
structure RtuHeader where
  slave : Nat
deriving DecidableEq

/-- RTU `RequestAdu` (`src/frame/rtu.rs`); the transparent `RequestPdu`
newtype is flattened. -/
structure RtuRequestAdu where
  hdr : RtuHeader
  pdu : Request
deriving DecidableEq

/-- RTU `ResponseAdu` (`src/frame/rtu.rs`). -/
structure RtuResponseAdu where
  hdr : RtuHeader
  pdu : ResponsePdu
deriving DecidableEq

/-- `rtu::client::encode_request` (`src/codec/rtu/client.rs`): encode the
PDU at `buf[1..]`, then prepend the slave id and append the CRC. -/
def rtuClientEncodeRequest (adu : RtuRequestAdu) (buf : List Nat) : Outcome (List Nat × Nat) :=
  if buf.length < 2 then .err .BufferSize
  else
    match Request.encode adu.pdu (buf.drop 1) with
    | .fatal => .fatal
    | .err e => .err e
    | .ok (inner, len) =>
      let buf := buf.take 1 ++ inner
      if buf.length < len + 3 then .err .BufferSize
      else
        let buf := buf.set 0 adu.hdr.slave
        let crc := crc16 (buf.take (len + 1))
        .ok (writeU16 buf (len + 1) crc, len + 3)

/-- `rtu::server::encode_response` (`src/codec/rtu/server.rs`): same
shape as the client request encoder, with the response PDU. -/
def rtuServerEncodeResponse (adu : RtuResponseAdu) (buf : List Nat) : Outcome (List Nat × Nat) :=
  if buf.length < 2 then .err .BufferSize
  else
    match ResponsePdu.encode adu.pdu (buf.drop 1) with
    | .fatal => .fatal
    | .err e => .err e
    | .ok (inner, len) =>
      let buf := buf.take 1 ++ inner
      if buf.length < len + 3 then .err .BufferSize
      else
        let buf := buf.set 0 adu.hdr.slave
        let crc := crc16 (buf.take (len + 1))
        .ok (writeU16 buf (len + 1) crc, len + 3)

/-- `rtu::client::decode_response` (`src/codec/rtu/client.rs`). The final
`.map_err(|_| unreachable!())` turns every error of the chain — the
framer error surfaced by `decode` as well as a PDU decode error — into a
panic (`fatal`); the function can only return `Ok`. -/
def rtuClientDecodeResponse (buf : List Nat) : Outcome (Option RtuResponseAdu) :=
  if buf.length = 0 then .ok none
  else
    match rtuDecode .Response buf with
    | .error _ => .fatal
    | .ok none => .ok none
    | .ok (some (frame, _)) =>
      match decodeResponsePdu frame.pdu with
      | .ok pdu => .ok (some { hdr := { slave := frame.slave }, pdu })
      | .err _ => .fatal
      | .fatal => .fatal

/-- `rtu::server::decode_request` (`src/codec/rtu/server.rs`), with the
same `.map_err(|_| unreachable!())` panic on any error. -/
def rtuServerDecodeRequest (buf : List Nat) : Outcome (Option RtuRequestAdu) :=
  if buf.length = 0 then .ok none
  else
    match rtuDecode .Request buf with
    | .error _ => .fatal
    | .ok none => .ok none
    | .ok (some (frame, _)) =>
      match Request.tryFrom frame.pdu with
      | .ok pdu => .ok (some { hdr := { slave := frame.slave }, pdu })
      | .error _ => .fatal

/-- TCP `Header` (`src/frame/tcp.rs`). -/
structure TcpHeader where
  transactionId : Nat
  unitId : Nat
deriving DecidableEq

/-- TCP `RequestAdu` (`src/frame/tcp.rs`). -/
structure TcpRequestAdu where
  hdr : TcpHeader
  pdu : Request
deriving DecidableEq

/-- TCP `ResponseAdu` (`src/frame/tcp.rs`). -/
structure TcpResponseAdu where
  hdr : TcpHeader
  pdu : ResponsePdu
deriving DecidableEq

/-- `request_pdu_len` (`src/codec/tcp/mod.rs`). The 0x0F/0x10 arm guards
with `adu_buf.len() > 10` but reads `adu_buf[12]`, so buffers of length
11 or 12 panic (`fatal`); the 0x17 arm guards with `> 16` before reading
index 16, which is in bounds. -/
def tcpRequestPduLen (aduBuf : List Nat) : Outcome (Option Nat) :=
  if aduBuf.length < 8 then .ok none
  else
    let fnCode := aduBuf.getD 7 0
    if 0x01 ≤ fnCode ∧ fnCode ≤ 0x06 then .ok (some 5)
    else if fnCode = 0x07 ∨ fnCode = 0x0B ∨ fnCode = 0x0C ∨ fnCode = 0x11 then .ok (some 1)
    else if fnCode = 0x0F ∨ fnCode = 0x10 then
      if aduBuf.length > 10 then
        match aduBuf[12]? with
        | some byteCount => .ok (some (6 + byteCount))
        | none => .fatal
      else .ok none
    else if fnCode = 0x16 then .ok (some 7)
    else if fnCode = 0x18 then .ok (some 3)
    else if fnCode = 0x17 then
      if aduBuf.length > 16 then
        match aduBuf[16]? with
        | some byteCount => .ok (some (10 + byteCount))
        | none => .fatal
      else .ok none
    else .err (.FnCode fnCode)

/-- `tcp::client::encode_request` (`src/codec/tcp/client.rs`): only
`buf.len() < 2` is checked before slicing `&mut buf[7..]`, so
destination buffers of length 2 through 6 panic (`fatal`). -/
def tcpClientEncodeRequest (adu : TcpRequestAdu) (buf : List Nat) : Outcome (List Nat × Nat) :=
  if buf.length < 2 then .err .BufferSize
  else if buf.length < 7 then .fatal
  else
    match Request.encode adu.pdu (buf.drop 7) with
    | .fatal => .fatal
    | .err e => .err e
    | .ok (inner, len) =>
      let buf := buf.take 7 ++ inner
      if buf.length < len + 7 then .err .BufferSize
      else
        let buf := writeU16 buf 0 adu.hdr.transactionId
        let buf := (buf.set 2 0).set 3 0
        let buf := writeU16 buf 4 (1 + len)
        let buf := buf.set 6 adu.hdr.unitId
        .ok (buf, len + 7)

/-- `tcp::server::encode_response` (`src/codec/tcp/server.rs`): checks
`buf.len() < 7` up front, writes the MBAP header, and fills in the
length field after encoding the PDU. -/
def tcpServerEncodeResponse (adu : TcpResponseAdu) (buf : List Nat) : Outcome (List Nat × Nat) :=
  if buf.length < 7 then .err .BufferSize
  else
    let buf := writeU16 buf 0 adu.hdr.transactionId
    let buf := writeU16 buf 2 0
    let buf := buf.set 6 adu.hdr.unitId
    match ResponsePdu.encode adu.pdu (buf.drop 7) with
    | .fatal => .fatal
    | .err e => .err e
    | .ok (inner, len) =>
      let buf := buf.take 7 ++ inner
      if buf.length < len + 7 then .err .BufferSize
      else .ok (writeU16 buf 4 (len + 1), len + 7)

/-- `tcp::server::encode_request` (`src/codec/tcp/server.rs`): identical
shape with the request PDU. -/
def tcpServerEncodeRequest (adu : TcpRequestAdu) (buf : List Nat) : Outcome (List Nat × Nat) :=
  if buf.length < 7 then .err .BufferSize
  else
    let buf := writeU16 buf 0 adu.hdr.transactionId
    let buf := writeU16 buf 2 0
    let buf := buf.set 6 adu.hdr.unitId
    match Request.encode adu.pdu (buf.drop 7) with
    | .fatal => .fatal
    | .err e => .err e
    | .ok (inner, len) =>
      let buf := buf.take 7 ++ inner
      if buf.length < len + 7 then .err .BufferSize
      else .ok (writeU16 buf 4 (len + 1), len + 7)

/-- Pointwise bitwise OR of two byte buffers (proof device for the
pack-coils OR-accumulation property). -/
def orBytes (a b : List Nat) : List Nat := List.zipWith (· ||| ·) a b

/-- Well-formedness of a `Request` value, matching the type and view
invariants of the Rust structs: 16-bit fields are below `2^16`, a
`Coils` view carries exactly `packed_len` data bytes, a register view
carries exactly `2 * quantity` data bytes with the byte count
`2 * quantity` fitting the wire's `u8` field, and a `Custom` request
carries a non-reserved code below `0x80`. The `rtu`-feature variants
have no encode path (`todo!()`), so they are not well formed. -/
def Request.wellFormed : Request → Prop
  | .ReadCoils address quantity | .ReadDiscreteInputs address quantity
  | .ReadInputRegisters address quantity | .ReadHoldingRegisters address quantity =>
    address < 65536 ∧ quantity < 65536
  | .WriteSingleRegister address word => address < 65536 ∧ word < 65536
  | .WriteSingleCoil address _ => address < 65536
  | .WriteMultipleCoils address coils =>
    address < 65536 ∧ coils.quantity < 65536 ∧ coils.data.length = coils.packedLen
  | .WriteMultipleRegisters address words =>
    address < 65536 ∧ words.quantity < 128 ∧ words.data.length = 2 * words.quantity
  | .ReadWriteMultipleRegisters readAddress readQuantity writeAddress words =>
    readAddress < 65536 ∧ readQuantity < 65536 ∧ writeAddress < 65536 ∧
      words.quantity < 128 ∧ words.data.length = 2 * words.quantity
  | .Custom function _ =>
    ∃ code, function = .Custom code ∧ code < 0x80 ∧ FunctionCode.new code = .Custom code
  | _ => False

/-- Claim C9: `crc16` computes the Modbus CRC-16 — seed `0xFFFF`, per-byte
XOR followed by eight shift rounds with polynomial `0xA001`, final byte
swap — and both source test vectors hold, for the codec `crc16`
(`src/codec/rtu/mod.rs`) and the legacy `crc16` (`src/rtu.rs`) alike. -/
theorem c9_crc16_vectors :
    crc16 [0x01, 0x03, 0x08, 0x2B, 0x00, 0x02] = 0xB663 ∧
    crc16 [0x01, 0x03, 0x04, 0x00, 0x20, 0x00, 0x00] = 0xFBF9 ∧
    crc16Legacy [0x01, 0x03, 0x08, 0x2B, 0x00, 0x02] = 0xB663 ∧
    crc16Legacy [0x01, 0x03, 0x04, 0x00, 0x20, 0x00, 0x00] = 0xFBF9 := by
  refine ⟨by decide, by decide, by decide, by decide⟩

/-- Claim C6, counterexample: the claim asserts that the serialization
length of a `WriteSingleCoil` response and the RTU framer's PDU-length
prediction for function byte `0x05` are both 3; in the code
`Response::pdu_len` returns 5 and `response_pdu_len` predicts 5. -/
theorem c6_counterexample :
    Response.pduLen (.WriteSingleCoil 0x33) ≠ some 3 ∧
    rtuResponsePduLen [0x01, 0x05] ≠ .ok (some 3) := by
  refine ⟨by decide, by decide⟩

/-- Claim C6, amended: decoding `[0x05, 0x00, 0x33]` yields
`Response::WriteSingleCoil(0x33)` and the decoder's minimum PDU length
for `0x05` is 3, but the serialization length is 5 — `Response::pdu_len`
returns 5, `encode` reports 5 and rejects a 3-byte buffer — and the RTU
framer predicts 5 for a response ADU with function byte `0x05`. -/
theorem c6_write_single_coil_response :
    Response.tryFrom [0x05, 0x00, 0x33] = .ok (.WriteSingleCoil 0x33) ∧
    minResponsePduLen .WriteSingleCoil = 3 ∧
    Response.pduLen (.WriteSingleCoil 0x33) = some 5 ∧
    Response.encode (.WriteSingleCoil 0x33) (List.replicate 5 0)
      = .ok ([0x05, 0x00, 0x33, 0, 0], 5) ∧
    Response.encode (.WriteSingleCoil 0x33) (List.replicate 3 0) = .err .BufferSize ∧
    rtuResponsePduLen [0x01, 0x05] = .ok (some 5) := by
  refine ⟨by decide, by decide, by decide, by decide, by decide, by decide⟩

/-- Claim C4: the TCP `request_pdu_len` classifies correctly once enough
bytes are present — `Ok(None)` below 8 bytes or before the deciding byte,
the byte count read at `adu[12]` for `0x0F`/`0x10` and at `adu[16]` for
`0x17`, `Err(FnCode)` for unclassifiable codes — but it does NOT return
without panicking on every input: the `0x0F`/`0x10` arm guards only
`len > 10` before indexing `adu[12]`, so an 11-byte buffer with function
code `0x0F` at `adu[7]` hits an out-of-bounds panic instead of
`Ok(None)`. -/
theorem c4_tcp_request_pdu_len :
    tcpRequestPduLen [0, 0, 0, 0, 0, 0, 0, 0x0F, 0, 0, 0] = .fatal ∧
    tcpRequestPduLen [0, 0, 0, 0, 0, 0, 0] = .ok none ∧
    tcpRequestPduLen [0, 0, 0, 0, 0, 0, 0, 0x0F, 0, 0] = .ok none ∧
    tcpRequestPduLen [0, 0, 0, 0, 0, 0, 0, 0x0F, 0, 0, 0, 0, 9] = .ok (some 15) ∧
    tcpRequestPduLen [0, 0, 0, 0, 0, 0, 0, 0x17, 0, 0, 0, 0, 0, 0, 0, 0, 4] = .ok (some 14) ∧
    tcpRequestPduLen [0, 0, 0, 0, 0, 0, 0, 0x66, 0, 0, 0, 0, 0] = .err (.FnCode 0x66) ∧
    tcpRequestPduLen [0, 0, 0, 0, 0, 0, 0, 0x03, 0] = .ok (some 5) := by
  refine ⟨by decide, by decide, by decide, by decide, by decide, by decide, by decide⟩

/-- Claim C3: after 256 bytes have been skipped the RTU `decode` loop
does surface the most recent framer error as `Err` — but the facade
entry points map every error through `unreachable!()`, so the caller of
`rtu::client::decode_response` or `rtu::server::decode_request` gets a
panic, not an `Err` value: on 257 bytes of `0x42` the framer returns
`Err(FnCode(0x42))` and both facades panic. -/
theorem c3_framer_error_panics :
    rtuDecode .Response (List.replicate 257 0x42) = .error (.FnCode 0x42) ∧
    rtuClientDecodeResponse (List.replicate 257 0x42) = .fatal ∧
    rtuDecode .Request (List.replicate 257 0x42) = .error (.FnCode 0x42) ∧
    rtuServerDecodeRequest (List.replicate 257 0x42) = .fatal := by
  refine ⟨by decide, by decide, by decide, by decide⟩

/-- Claim C7: the encode entry points of both transports and roles return
`Err(BufferSize)` for a destination one byte shorter than required and
succeed on an exactly-sized destination (shown on the source's
`WriteSingleRegister` vectors, required sizes 8 for RTU and 12 for TCP)
— but `tcp::client::encode_request` checks only `buf.len() < 2` before
slicing `&mut buf[7..]`, so a 2-byte destination panics instead of
returning `Err(BufferSize)`. -/
theorem c7_encode_buffer_bounds :
    rtuClientEncodeRequest
      { hdr := { slave := 0x12 }, pdu := .WriteSingleRegister 0x2222 0xABCD }
      (List.replicate 7 0) = .err .BufferSize ∧
    rtuClientEncodeRequest
      { hdr := { slave := 0x12 }, pdu := .WriteSingleRegister 0x2222 0xABCD }
      (List.replicate 8 0) = .ok ([0x12, 0x06, 0x22, 0x22, 0xAB, 0xCD, 0x9F, 0xBE], 8) ∧
    rtuServerEncodeResponse
      { hdr := { slave := 0x12 }, pdu := .ok (.WriteSingleRegister 0x2222 0xABCD) }
      (List.replicate 7 0) = .err .BufferSize ∧
    rtuServerEncodeResponse
      { hdr := { slave := 0x12 }, pdu := .ok (.WriteSingleRegister 0x2222 0xABCD) }
      (List.replicate 8 0) = .ok ([0x12, 0x06, 0x22, 0x22, 0xAB, 0xCD, 0x9F, 0xBE], 8) ∧
    tcpServerEncodeResponse
      { hdr := { transactionId := 42, unitId := 0x12 },
        pdu := .ok (.WriteSingleRegister 0x2222 0xABCD) }
      (List.replicate 11 0) = .err .BufferSize ∧
    tcpServerEncodeResponse
      { hdr := { transactionId := 42, unitId := 0x12 },
        pdu := .ok (.WriteSingleRegister 0x2222 0xABCD) }
      (List.replicate 12 0) = .ok ([0, 42, 0, 0, 0, 6, 0x12, 0x06, 0x22, 0x22, 0xAB, 0xCD], 12) ∧
    tcpClientEncodeRequest
      { hdr := { transactionId := 0x1234, unitId := 0x12 },
        pdu := .WriteSingleRegister 0x2222 0xABCD }
      (List.replicate 11 0) = .err .BufferSize ∧
    tcpClientEncodeRequest
      { hdr := { transactionId := 0x1234, unitId := 0x12 },
        pdu := .WriteSingleRegister 0x2222 0xABCD }
      (List.replicate 12 0)
      = .ok ([0x12, 0x34, 0, 0, 0, 6, 0x12, 0x06, 0x22, 0x22, 0xAB, 0xCD], 12) ∧
    tcpClientEncodeRequest
      { hdr := { transactionId := 0x1234, unitId := 0x12 },
        pdu := .WriteSingleRegister 0x2222 0xABCD }
      (List.replicate 2 0) = .fatal := by
  refine ⟨by decide, by decide, by decide, by decide, by decide, by decide, by decide,
    by decide, by decide⟩

/-- Claim C5, counterexample: on the 8-byte input
`[0x0F, 0, 0, 0, 1, 1, 0xFF, 0xAA]` — whose length exceeds
`6 + byte_count = 7` — the decoded coils view keeps the whole tail
`[0xFF, 0xAA]` as its data, not the claimed `bytes[6..6+byte_count] =
[0xFF]`. -/
theorem c5_counterexample :
    Request.tryFrom [0x0F, 0x00, 0x00, 0x00, 0x01, 0x01, 0xFF, 0xAA]
      = .ok (.WriteMultipleCoils 0 { data := [0xFF, 0xAA], quantity := 1 }) ∧
    (Coils.mk [0xFF, 0xAA] 1) ≠ (Coils.mk [0xFF] 1) := by
  refine ⟨by decide, by decide⟩

/-- Claim C1, counterexample: the well-typed request
`WriteMultipleCoils(0, Coils { data: [1, 255], quantity: 1 })` fits in a
buffer of exactly `pdu_len = 7` bytes, encodes successfully, but decodes
to a different request — the view's data comes back truncated to the
packed length. -/
theorem c1_counterexample :
    Request.encode (.WriteMultipleCoils 0 { data := [1, 255], quantity := 1 })
      (List.replicate 7 0) = .ok ([15, 0, 0, 0, 1, 1, 1], 7) ∧
    Request.tryFrom [15, 0, 0, 0, 1, 1, 1]
      = .ok (.WriteMultipleCoils 0 { data := [1], quantity := 1 }) ∧
    (Request.WriteMultipleCoils 0 { data := [1], quantity := 1 })
      ≠ (.WriteMultipleCoils 0 { data := [1, 255], quantity := 1 }) := by
  refine ⟨by decide, by decide, by decide⟩

/-- `FunctionCode::new` on the named codes, as rewrite rules. -/
theorem functionCode_new_0F : FunctionCode.new 0x0F = .WriteMultipleCoils := rfl

theorem functionCode_new_10 : FunctionCode.new 0x10 = .WriteMultipleRegisters := rfl

theorem functionCode_new_17 : FunctionCode.new 0x17 = .ReadWriteMultipleRegisters := rfl

/-- Decoding a `0x0F` request: helper giving both branches of the
byte-count check. -/
theorem request_tryFrom_0F (bytes : List Nat)
    (h0 : bytes.getD 0 0 = 0x0F) (h6 : 6 ≤ bytes.length) :
    (6 + bytes.getD 5 0 ≤ bytes.length →
      Request.tryFrom bytes = .ok (.WriteMultipleCoils (readU16 bytes 1)
        { data := bytes.drop 6, quantity := readU16 bytes 3 })) ∧
    (bytes.length < 6 + bytes.getD 5 0 →
      Request.tryFrom bytes = .error (.ByteCount (bytes.getD 5 0))) := by
  have hne : ¬ (bytes.length = 0) := by omega
  have hlt6 : ¬ (bytes.length < 6) := by omega
  constructor
  · intro hlen
    have hc : ¬ (bytes.length < 6 + bytes.getD 5 0) := by omega
    simp only [Request.tryFrom, h0, functionCode_new_0F, minRequestPduLen,
      if_neg hne, if_neg hlt6, if_neg hc]
  · intro hlen
    simp only [Request.tryFrom, h0, functionCode_new_0F, minRequestPduLen,
      if_neg hne, if_neg hlt6, if_pos hlen]

/-- Decoding a `0x10` request, success branch. -/
theorem request_tryFrom_10 (bytes : List Nat)
    (h0 : bytes.getD 0 0 = 0x10) (h6 : 6 ≤ bytes.length)
    (hlen : 6 + bytes.getD 5 0 ≤ bytes.length) :
    Request.tryFrom bytes = .ok (.WriteMultipleRegisters (readU16 bytes 1)
      { data := (bytes.drop 6).take (bytes.getD 5 0), quantity := readU16 bytes 3 }) := by
  have hne : ¬ (bytes.length = 0) := by omega
  have hlt6 : ¬ (bytes.length < 6) := by omega
  have hc : ¬ (bytes.length < 6 + bytes.getD 5 0) := by omega
  simp only [Request.tryFrom, h0, functionCode_new_10, minRequestPduLen,
    if_neg hne, if_neg hlt6, if_neg hc]

/-- Decoding a `0x17` request, success branch. -/
theorem request_tryFrom_17 (bytes : List Nat)
    (h0 : bytes.getD 0 0 = 0x17) (h10 : 10 ≤ bytes.length)
    (hlen : 10 + bytes.getD 9 0 ≤ bytes.length) :
    Request.tryFrom bytes = .ok (.ReadWriteMultipleRegisters (readU16 bytes 1)
      (readU16 bytes 3) (readU16 bytes 5)
      { data := (bytes.drop 10).take (bytes.getD 9 0), quantity := readU16 bytes 7 }) := by
  have hne : ¬ (bytes.length = 0) := by omega
  have hlt10 : ¬ (bytes.length < 10) := by omega
  have hc : ¬ (bytes.length < 10 + bytes.getD 9 0) := by omega
  simp only [Request.tryFrom, h0, functionCode_new_17, minRequestPduLen,
    if_neg hne, if_neg hlt10, if_neg hc]

/-- Claim C5, amended: decoding a `WriteMultipleCoils` request from a
slice with first byte `0x0F` and at least `6 + byte_count` bytes yields
`WriteMultipleCoils(address, coils)` with the coils data being the whole
tail `bytes[6..]` (not just `byte_count` bytes of it) and the quantity
the declared `u16_be(bytes[3..5])`; a slice shorter than
`6 + byte_count` fails with `ByteCount(byte_count)`. -/
theorem c5_decode_write_multiple_coils (bytes : List Nat)
    (h0 : bytes.getD 0 0 = 0x0F) (h6 : 6 ≤ bytes.length) :
    (6 + bytes.getD 5 0 ≤ bytes.length →
      Request.tryFrom bytes = .ok (.WriteMultipleCoils (readU16 bytes 1)
        { data := bytes.drop 6, quantity := readU16 bytes 3 })) ∧
    (bytes.length < 6 + bytes.getD 5 0 →
      Request.tryFrom bytes = .error (.ByteCount (bytes.getD 5 0))) :=
  request_tryFrom_0F bytes h0 h6

/-- Witness for C5 on the source's own test vectors: the 7-byte frame
decodes with the full tail as data, and a short frame fails with
`ByteCount(2)`. -/
theorem c5_decode_write_multiple_coils_witness :
    Request.tryFrom [0x0F, 0x33, 0x11, 0x00, 0x04, 0x01, 0x0D]
      = .ok (.WriteMultipleCoils 0x3311 { data := [0x0D], quantity := 4 }) ∧
    Request.tryFrom [0x0F, 0x33, 0x11, 0x00, 0x04, 0x02, 0x0D]
      = .error (.ByteCount 2) :=
  ⟨(c5_decode_write_multiple_coils [0x0F, 0x33, 0x11, 0x00, 0x04, 0x01, 0x0D]
      (by decide) (by decide)).1 (by decide),
   (c5_decode_write_multiple_coils [0x0F, 0x33, 0x11, 0x00, 0x04, 0x02, 0x0D]
      (by decide) (by decide)).2 (by decide)⟩

/-- `Exception::try_from` is total: every byte is either one of the nine
defined exceptions or fails with `ExceptionCode` of that byte. -/
theorem exception_tryFrom_total (b : Nat) :
    (∃ x, Exception.tryFrom b = .ok x) ∨ Exception.tryFrom b = .error (.ExceptionCode b) := by
  unfold Exception.tryFrom
  split
  all_goals first
    | exact .inl ⟨_, rfl⟩
    | exact .inr rfl

/-- Claim C8, counterexample: the claim says the decoded value is never
an ordinary `Response` with a function code at or above `0x80`; but when
the exception byte is invalid (`0x07` here) the facade's PDU step falls
back to `Response::try_from`, which returns
`Custom(Custom(0x81), [0x07])` — an ordinary response whose function
value is `0x81 ≥ 0x80`. -/
theorem c8_counterexample :
    decodeResponsePdu [0x81, 0x07] = .ok (.ok (.Custom (.Custom 0x81) [0x07])) ∧
    0x80 ≤ (FunctionCode.Custom 0x81).value := by
  refine ⟨by decide, by decide⟩

/-- Claim C8, amended: on a PDU of at least two bytes whose first byte
`c` has the high bit set, `ExceptionResponse::try_from` parses
`classify(c - 0x80)` with the exception from `bytes[1]` when that byte is
one of the nine defined values, and fails with `ExceptionCode(bytes[1])`
otherwise; a first byte below `0x80` fails with `ExceptionFnCode`. When
the exception byte is invalid, the facade's fallback to
`Response::try_from` can still produce an ordinary `Custom` response
carrying a function code at or above `0x80` (see the counterexample). -/
theorem c8_exception_response_decode (bytes : List Nat) (h2 : 2 ≤ bytes.length) :
    (∀ e, 0x80 ≤ bytes.getD 0 0 → Exception.tryFrom (bytes.getD 1 0) = .ok e →
      ExceptionResponse.tryFrom bytes
        = .ok { function := FunctionCode.new (bytes.getD 0 0 - 0x80), exception := e }) ∧
    (0x80 ≤ bytes.getD 0 0 → (∀ x, Exception.tryFrom (bytes.getD 1 0) ≠ .ok x) →
      ExceptionResponse.tryFrom bytes = .err (.ExceptionCode (bytes.getD 1 0))) ∧
    (bytes.getD 0 0 < 0x80 →
      ExceptionResponse.tryFrom bytes = .err (.ExceptionFnCode (bytes.getD 0 0))) := by
  have hne : ¬ (bytes.length = 0) := by omega
  have h1lt : 1 < bytes.length := by omega
  have hget : bytes[1]? = some (bytes.getD 1 0) := by
    rw [List.getElem?_eq_getElem h1lt, List.getD_eq_getElem bytes 0 h1lt]
  refine ⟨?_, ?_, ?_⟩
  · intro e hge hex
    simp only [ExceptionResponse.tryFrom, if_neg hne,
      if_neg (by omega : ¬ bytes.getD 0 0 < 0x80), hget, hex]
  · intro hge hno
    rcases exception_tryFrom_total (bytes.getD 1 0) with ⟨x, hx⟩ | herr
    · exact absurd hx (hno x)
    · simp only [ExceptionResponse.tryFrom, if_neg hne,
        if_neg (by omega : ¬ bytes.getD 0 0 < 0x80), hget, herr]
  · intro hlt
    simp only [ExceptionResponse.tryFrom, if_neg hne, if_pos hlt]

/-- Witness for C8 on the source's test vectors: `[0x83, 0x02]` parses
as the `IllegalDataAddress` exception for function 3, `[0x81, 0x0C]`
fails with `ExceptionCode(0x0C)`, and `[0x79, 0x02]` fails with
`ExceptionFnCode(0x79)`. -/
theorem c8_exception_response_decode_witness :
    ExceptionResponse.tryFrom [0x83, 0x02]
      = .ok { function := .ReadHoldingRegisters, exception := .IllegalDataAddress } ∧
    ExceptionResponse.tryFrom [0x81, 0x0C] = .err (.ExceptionCode 0x0C) ∧
    ExceptionResponse.tryFrom [0x79, 0x02] = .err (.ExceptionFnCode 0x79) :=
  ⟨(c8_exception_response_decode [0x83, 0x02] (by decide)).1 .IllegalDataAddress
      (by decide) (by decide),
   (c8_exception_response_decode [0x81, 0x0C] (by decide)).2.1 (by decide)
      (fun x => by cases x <;> decide),
   (c8_exception_response_decode [0x79, 0x02] (by decide)).2.2 (by decide)⟩

/-- `extract_frame` only returns a frame when the buffer holds the full
ADU and CRC: `pdu_len + 3` bytes. -/
theorem extractFrame_length {buf : List Nat} {p : Nat} {df : DecodedFrame}
    (h : extractFrame buf p = .ok (some df)) : p + 3 ≤ buf.length := by
  by_contra hc
  unfold extractFrame at h
  split at h
  · simp at h
  · simp only [if_neg (show ¬ (1 + p + 2 ≤ buf.length) from by omega)] at h
    simp at h

/-- Unfolding rule for one iteration of the RTU decode loop. -/
theorem decodeLoop_succ (ty : DecoderType) (buf : List Nat) (dropCnt fuel : Nat) :
    decodeLoop ty buf dropCnt (fuel + 1) =
      if dropCnt + 1 ≥ buf.length then Except.ok none
      else match decodeStep ty buf dropCnt with
        | Except.ok v => Except.ok v
        | Except.error e =>
          if dropCnt + 1 ≥ MAX_FRAME_LEN then Except.error e
          else decodeLoop ty buf (dropCnt + 1) fuel := rfl

/-- If every scan position before `i` yields a framer error and position
`i` yields a frame, the decode loop started anywhere at or before `i`
(with enough fuel) returns that frame. -/
theorem decodeLoop_reaches (ty : DecoderType) (buf : List Nat) (i : Nat)
    (v : DecodedFrame × FrameLocation)
    (hstep : decodeStep ty buf i = .ok (some v))
    (hlen : i + 1 < buf.length) (hmax : i < MAX_FRAME_LEN)
    (hgar : ∀ k, k < i → ∃ e, decodeStep ty buf k = .error e) :
    ∀ n fuel j, j + n = i → n < fuel → decodeLoop ty buf j fuel = .ok (some v) := by
  intro n
  induction n with
  | zero =>
    intro fuel j hj hf
    obtain ⟨f', rfl⟩ : ∃ f', fuel = f' + 1 := ⟨fuel - 1, by omega⟩
    have hstep' : decodeStep ty buf j = .ok (some v) := by
      rw [show j = i from by omega]; exact hstep
    rw [decodeLoop_succ, if_neg (by omega), hstep']
  | succ n ih =>
    intro fuel j hj hf
    obtain ⟨f', rfl⟩ : ∃ f', fuel = f' + 1 := ⟨fuel - 1, by omega⟩
    obtain ⟨e, he⟩ := hgar j (by omega)
    rw [decodeLoop_succ, if_neg (by omega), he]
    show (if j + 1 ≥ MAX_FRAME_LEN then Except.error e else decodeLoop ty buf (j + 1) f')
      = Except.ok (some v)
    rw [if_neg (by unfold MAX_FRAME_LEN at hmax ⊢; omega)]
    exact ih f' (j + 1) (by omega) (by omega)

/-- Claim C2: prepending `i < MAX_FRAME_LEN` non-framing bytes to a valid
encoded RTU frame still decodes the same ADU (same slave and PDU bytes),
located at `start = i` with `size = pdu_len + 3`. A valid frame is one
whose PDU length the per-kind predictor determines and whose CRC check
succeeds; non-framing means every scan position inside the prepended
garbage makes the framer error out (rather than frame or stall), which
the drop-and-retry loop absorbs one byte at a time. -/
theorem c2_rtu_decode_skips_garbage (ty : DecoderType) (g f : List Nat) (p : Nat)
    (df : DecodedFrame)
    (hg : g.length < MAX_FRAME_LEN)
    (hp : rtuPduLen ty f = .ok (some p))
    (hx : extractFrame f p = .ok (some df))
    (hgar : ∀ j, j < g.length → ∃ e, decodeStep ty (g ++ f) j = .error e) :
    rtuDecode ty (g ++ f) = .ok (some (df, { start := g.length, size := p + 3 })) := by
  have hfl : p + 3 ≤ f.length := extractFrame_length hx
  have hlen : (g ++ f).length = g.length + f.length := List.length_append g f
  have hdrop : (g ++ f).drop g.length = f := List.drop_left g f
  have hstep : decodeStep ty (g ++ f) g.length
      = .ok (some (df, { start := g.length, size := p + 3 })) := by
    simp only [decodeStep, hdrop, hp, hx]
  unfold rtuDecode
  rw [if_neg (by omega)]
  exact decodeLoop_reaches ty (g ++ f) g.length _ hstep (by omega) (by omega) hgar
    g.length (g ++ f).length 0 (by omega) (by omega)

/-- Witness for C2 on the source's `decode_rtu_response_drop_invalid_bytes`
test: two garbage bytes before a valid response frame decode to the
frame at `start = 2`, `size = 9`. -/
theorem c2_rtu_decode_skips_garbage_witness :
    rtuDecode .Response [0x42, 0x43, 0x01, 0x03, 0x04, 0x89, 0x02, 0x42, 0xC7, 0x00, 0x9D, 0x00]
      = .ok (some ({ slave := 0x01, pdu := [0x03, 0x04, 0x89, 0x02, 0x42, 0xC7] },
          { start := 2, size := 9 })) := by
  have h := c2_rtu_decode_skips_garbage .Response [0x42, 0x43]
    [0x01, 0x03, 0x04, 0x89, 0x02, 0x42, 0xC7, 0x00, 0x9D, 0x00]
    6 { slave := 0x01, pdu := [0x03, 0x04, 0x89, 0x02, 0x42, 0xC7] }
    (by decide) (by decide) (by decide) ?_
  · exact h
  · intro j hj
    simp only [List.length_cons, List.length_nil] at hj
    interval_cases j
    · exact ⟨_, rfl⟩
    · exact ⟨_, rfl⟩

/-- `getD` of the pointwise OR of two same-length buffers. -/
theorem orBytes_getD (a : List Nat) : ∀ (b : List Nat), a.length = b.length →
    ∀ k, (orBytes a b).getD k 0 = a.getD k 0 ||| b.getD k 0 := by
  induction a with
  | nil =>
    intro b hb k
    cases b with
    | nil => simp [orBytes]
    | cons y ys => simp at hb
  | cons x xs ih =>
    intro b hb k
    cases b with
    | nil => simp at hb
    | cons y ys =>
      cases k with
      | zero => simp [orBytes]
      | succ k => simpa [orBytes] using ih ys (by simpa using hb) k

/-- Indexing the pointwise OR at a position present in the right buffer. -/
theorem orBytes_getElem? (a : List Nat) : ∀ (b : List Nat), a.length = b.length →
    ∀ (i byte : Nat), b[i]? = some byte →
    (orBytes a b)[i]? = some (a.getD i 0 ||| byte) := by
  induction a with
  | nil =>
    intro b hb i byte h
    cases b with
    | nil => simp at h
    | cons y ys => simp at hb
  | cons x xs ih =>
    intro b hb i byte h
    cases b with
    | nil => simp at hb
    | cons y ys =>
      cases i with
      | zero =>
        simp only [List.getElem?_cons_zero, Option.some.injEq] at h
        simp [orBytes, h]
      | succ i =>
        simp only [List.getElem?_cons_succ] at h
        simpa [orBytes] using ih ys (by simpa using hb) i byte h

/-- Updating the right buffer commutes with the pointwise OR. -/
theorem orBytes_set (a : List Nat) : ∀ (b : List Nat) (i x : Nat), a.length = b.length →
    i < b.length → orBytes a (b.set i x) = (orBytes a b).set i (a.getD i 0 ||| x) := by
  induction a with
  | nil =>
    intro b i x hb hi
    cases b with
    | nil => simp at hi
    | cons y ys => simp at hb
  | cons z zs ih =>
    intro b i x hb hi
    cases b with
    | nil => simp at hb
    | cons y ys =>
      cases i with
      | zero => simp [orBytes]
      | succ i =>
        have hih := ih ys i x (by simpa using hb) (by simpa using hi)
        simp only [orBytes] at hih
        simp only [List.set_cons_succ, orBytes, List.zipWith_cons_cons, List.getD_cons_succ, hih]

/-- OR with an all-zero buffer is the identity. -/
theorem orBytes_replicate_zero (a : List Nat) : orBytes a (List.replicate a.length 0) = a := by
  induction a with
  | nil => simp [orBytes]
  | cons x xs ih => simp [orBytes, List.replicate_succ] at ih ⊢; simpa using ih

/-- `pack_coils` preserves the buffer length. -/
theorem packCoilsFrom_length (coils : List Bool) : ∀ (b : List Nat) (cnt q : Nat) (r : List Nat),
    packCoilsFrom coils b cnt = .ok (q, r) → r.length = b.length := by
  induction coils with
  | nil =>
    intro b cnt q r h
    simp only [packCoilsFrom, Except.ok.injEq, Prod.mk.injEq] at h
    rw [← h.2]
  | cons c cs ih =>
    intro b cnt q r h
    simp only [packCoilsFrom] at h
    cases hb : b[cnt / 8]? with
    | none => rw [hb] at h; simp at h
    | some byte =>
      rw [hb] at h
      have := ih _ _ _ _ h
      rw [this, List.length_set]

/-- Success of `pack_coils` (and the resulting count) depends only on the
buffer's length. -/
theorem packCoilsFrom_same_length (coils : List Bool) :
    ∀ (b b' : List Nat) (cnt q : Nat) (r : List Nat), b.length = b'.length →
    packCoilsFrom coils b cnt = .ok (q, r) →
    ∃ r', packCoilsFrom coils b' cnt = .ok (q, r') := by
  induction coils with
  | nil =>
    intro b b' cnt q r hlen h
    simp only [packCoilsFrom, Except.ok.injEq, Prod.mk.injEq] at h
    exact ⟨b', by simp [packCoilsFrom, h.1]⟩
  | cons c cs ih =>
    intro b b' cnt q r hlen h
    simp only [packCoilsFrom] at h ⊢
    cases hb : b[cnt / 8]? with
    | none => rw [hb] at h; simp at h
    | some byte =>
      rw [hb] at h
      have hidx : cnt / 8 < b'.length := by
        have : cnt / 8 < b.length := by
          by_contra hge
          rw [List.getElem?_eq_none (by omega)] at hb
          simp at hb
        omega
      rw [List.getElem?_eq_getElem hidx]
      exact ih _ _ _ _ _ (by simp [hlen]) h

/-- Running `pack_coils` over a buffer pre-OR-ed with `base` yields the
plain result pre-OR-ed with `base`: the packing only ORs bits in. -/
theorem packCoilsFrom_or (coils : List Bool) :
    ∀ (base b : List Nat) (cnt q : Nat) (r : List Nat), base.length = b.length →
    packCoilsFrom coils b cnt = .ok (q, r) →
    packCoilsFrom coils (orBytes base b) cnt = .ok (q, orBytes base r) := by
  induction coils with
  | nil =>
    intro base b cnt q r hlen h
    simp only [packCoilsFrom, Except.ok.injEq, Prod.mk.injEq] at h ⊢
    exact ⟨h.1, by rw [h.2]⟩
  | cons c cs ih =>
    intro base b cnt q r hlen h
    simp only [packCoilsFrom] at h ⊢
    cases hb : b[cnt / 8]? with
    | none => rw [hb] at h; simp at h
    | some byte =>
      rw [hb] at h
      have h' : packCoilsFrom cs
          (b.set (cnt / 8) (byte ||| (if c then 1 else 0) <<< (cnt % 8))) (cnt + 1)
          = .ok (q, r) := h
      have hidx : cnt / 8 < b.length := by
        by_contra hge
        rw [List.getElem?_eq_none (by omega)] at hb
        simp at hb
      rw [orBytes_getElem? base b hlen _ byte hb]
      show packCoilsFrom cs
          ((orBytes base b).set (cnt / 8)
            (base.getD (cnt / 8) 0 ||| byte ||| (if c then 1 else 0) <<< (cnt % 8)))
          (cnt + 1)
        = .ok (q, orBytes base r)
      rw [Nat.or_assoc, ← orBytes_set base b _ _ hlen hidx]
      exact ih base _ _ _ _ (by simp [hlen]) h'

/-- Claim C10: `pack_coils` only ORs coil bits into the target buffer and
never clears set bits — after a successful pack, each target byte equals
its previous value OR-ed with the bits the same pack writes into an
all-zero buffer — so `Coils::from_bools` over a dirty buffer can report
`get(i) = some true` for a coil that was supplied as `false`. -/
theorem c10_pack_coils_or_only (coils : List Bool) (buf : List Nat) (q : Nat) (buf' : List Nat)
    (h : pack_coils coils buf = .ok (q, buf')) :
    (∃ z, pack_coils coils (List.replicate buf.length 0) = .ok (q, z) ∧
      buf'.length = buf.length ∧
      ∀ k, buf'.getD k 0 = buf.getD k 0 ||| z.getD k 0) ∧
    Coils.from_bools [false] [1] = .ok { data := [1], quantity := 1 } ∧
    (Coils.mk [1] 1).get 0 = some true := by
  refine ⟨?_, by decide, by decide⟩
  obtain ⟨z, hz⟩ := packCoilsFrom_same_length coils buf (List.replicate buf.length 0) 0 q buf'
    (by simp) h
  have hor := packCoilsFrom_or coils buf (List.replicate buf.length 0) 0 q z (by simp) hz
  rw [orBytes_replicate_zero] at hor
  have hbuf' : buf' = orBytes buf z := by
    have h2 : Except.ok (ε := Err) (q, orBytes buf z) = .ok (q, buf') := hor.symm.trans h
    simp only [Except.ok.injEq, Prod.mk.injEq] at h2
    rw [← h2.2]
  have hzlen : z.length = buf.length := by
    simpa using packCoilsFrom_length coils (List.replicate buf.length 0) 0 q z hz
  refine ⟨z, hz, ?_, ?_⟩
  · rw [hbuf']
    simp [orBytes, hzlen]
  · intro k
    rw [hbuf', orBytes_getD buf z hzlen.symm k]

/-- Witness for C10: packing `[true, false]` into the dirty one-byte
buffer `[4]` yields `[5]` — the zero-buffer pack gives `[1]`, and
`5 = 4 ||| 1`. -/
theorem c10_pack_coils_or_only_witness :
    (∃ z, pack_coils [true, false] (List.replicate ([4] : List Nat).length 0) = .ok (2, z) ∧
      ([5] : List Nat).length = ([4] : List Nat).length ∧
      ∀ k, ([5] : List Nat).getD k 0 = ([4] : List Nat).getD k 0 ||| z.getD k 0) ∧
    Coils.from_bools [false] [1] = .ok { data := [1], quantity := 1 } ∧
    (Coils.mk [1] 1).get 0 = some true :=
  c10_pack_coils_or_only [true, false] [4] 2 [5] (by decide)

/-- `FunctionCode::new` on the six fixed-size request codes, as rewrite
rules. -/
theorem fc_new_01 : FunctionCode.new 0x01 = .ReadCoils := rfl
theorem fc_new_02 : FunctionCode.new 0x02 = .ReadDiscreteInputs := rfl
theorem fc_new_03 : FunctionCode.new 0x03 = .ReadHoldingRegisters := rfl
theorem fc_new_04 : FunctionCode.new 0x04 = .ReadInputRegisters := rfl
theorem fc_new_05 : FunctionCode.new 0x05 = .WriteSingleCoil := rfl
theorem fc_new_06 : FunctionCode.new 0x06 = .WriteSingleRegister := rfl

theorem request_tryFrom_01 (x1 x2 x3 x4 : Nat) :
    Request.tryFrom [0x01, x1, x2, x3, x4]
      = .ok (.ReadCoils (x1 * 256 + x2) (x3 * 256 + x4)) := by
  simp only [Request.tryFrom, List.length_cons, List.length_nil, List.getD_cons_zero,
    List.getD_cons_succ, fc_new_01, minRequestPduLen, readU16]
  norm_num

theorem request_tryFrom_02 (x1 x2 x3 x4 : Nat) :
    Request.tryFrom [0x02, x1, x2, x3, x4]
      = .ok (.ReadDiscreteInputs (x1 * 256 + x2) (x3 * 256 + x4)) := by
  simp only [Request.tryFrom, List.length_cons, List.length_nil, List.getD_cons_zero,
    List.getD_cons_succ, fc_new_02, minRequestPduLen, readU16]
  norm_num
theorem request_tryFrom_03 (x1 x2 x3 x4 : Nat) :
    Request.tryFrom [0x03, x1, x2, x3, x4]
      = .ok (.ReadHoldingRegisters (x1 * 256 + x2) (x3 * 256 + x4)) := by
  simp only [Request.tryFrom, List.length_cons, List.length_nil, List.getD_cons_zero,
    List.getD_cons_succ, fc_new_03, minRequestPduLen, readU16]
  norm_num
theorem request_tryFrom_04 (x1 x2 x3 x4 : Nat) :
    Request.tryFrom [0x04, x1, x2, x3, x4]
      = .ok (.ReadInputRegisters (x1 * 256 + x2) (x3 * 256 + x4)) := by
  simp only [Request.tryFrom, List.length_cons, List.length_nil, List.getD_cons_zero,
    List.getD_cons_succ, fc_new_04, minRequestPduLen, readU16]
  norm_num
theorem request_tryFrom_06 (x1 x2 x3 x4 : Nat) :
    Request.tryFrom [0x06, x1, x2, x3, x4]
      = .ok (.WriteSingleRegister (x1 * 256 + x2) (x3 * 256 + x4)) := by
  simp only [Request.tryFrom, List.length_cons, List.length_nil, List.getD_cons_zero,
    List.getD_cons_succ, fc_new_06, minRequestPduLen, readU16]
  norm_num

theorem request_tryFrom_05 (x1 x2 x3 x4 : Nat) (s : Bool)
    (hcoil : u16CoilToBool (x3 * 256 + x4) = .ok s) :
    Request.tryFrom [0x05, x1, x2, x3, x4] = .ok (.WriteSingleCoil (x1 * 256 + x2) s) := by
  simp only [Request.tryFrom, List.length_cons, List.length_nil, List.getD_cons_zero,
    List.getD_cons_succ, fc_new_05, minRequestPduLen, readU16, hcoil]
  norm_num

theorem request_tryFrom_custom (c : Nat) (payload : List Nat)
    (hnew : FunctionCode.new c = .Custom c) (hlt : c < 0x80) :
    Request.tryFrom (c :: payload) = .ok (.Custom (.Custom c) payload) := by
  simp only [Request.tryFrom, List.length_cons, List.getD_cons_zero, hnew,
    minRequestPduLen, if_pos hlt, List.drop_succ_cons, List.drop_zero]
  norm_num

theorem writeBytes_append (vs : List Nat) : ∀ (pre rest : List Nat), vs.length ≤ rest.length →
    writeBytes (pre ++ rest) pre.length vs = pre ++ (vs ++ rest.drop vs.length) := by
  induction vs with
  | nil => intro pre rest _; simp [writeBytes]
  | cons v vs ih =>
    intro pre rest hle
    cases rest with
    | nil => simp at hle
    | cons r0 rest' =>
      show writeBytes ((pre ++ r0 :: rest').set pre.length v) (pre.length + 1) vs
        = pre ++ (v :: vs ++ (r0 :: rest').drop (vs.length + 1))
      rw [List.set_append_right pre.length v (Nat.le_refl _), Nat.sub_self]
      have h1 : pre ++ (r0 :: rest').set 0 v = (pre ++ [v]) ++ rest' := by simp
      have h2 : pre.length + 1 = (pre ++ [v]).length := by simp
      rw [h1, h2, ih (pre ++ [v]) rest' (by simpa using hle)]
      simp

theorem writeBytes_one (p0 : Nat) (vs rest : List Nat) (h : vs.length ≤ rest.length) :
    writeBytes ([p0] ++ rest) 1 vs = [p0] ++ (vs ++ rest.drop vs.length) :=
  writeBytes_append vs [p0] rest h

theorem writeBytes_six (p0 p1 p2 p3 p4 p5 : Nat) (vs rest : List Nat)
    (h : vs.length ≤ rest.length) :
    writeBytes ([p0, p1, p2, p3, p4, p5] ++ rest) 6 vs
      = [p0, p1, p2, p3, p4, p5] ++ (vs ++ rest.drop vs.length) :=
  writeBytes_append vs [p0, p1, p2, p3, p4, p5] rest h

theorem writeBytes_ten (p0 p1 p2 p3 p4 p5 p6 p7 p8 p9 : Nat) (vs rest : List Nat)
    (h : vs.length ≤ rest.length) :
    writeBytes ([p0, p1, p2, p3, p4, p5, p6, p7, p8, p9] ++ rest) 10 vs
      = [p0, p1, p2, p3, p4, p5, p6, p7, p8, p9] ++ (vs ++ rest.drop vs.length) :=
  writeBytes_append vs [p0, p1, p2, p3, p4, p5, p6, p7, p8, p9] rest h

/-- Claim C1, amended: for every well-formed `Request` value (addresses and
quantities in range, data buffers sized consistently with the declared
quantities, custom function codes below `0x80`, and none of the rtu-only
variants whose `pdu_len` is `todo!()`), encoding into a fresh all-zero
buffer of exactly `pdu_len` bytes succeeds, reports that length, and
decoding the written bytes with `Request::try_from` yields the original
request.  The claim as stated over all `Request` values is refuted by
`c1_counterexample`. -/
theorem c1_roundtrip (r : Request) (h : r.wellFormed) :
    ∃ pduLen out, r.pduLen = some pduLen ∧
      Request.encode r (List.replicate pduLen 0) = .ok (out, pduLen) ∧
      Request.tryFrom out = .ok r := by
  cases r with
  | ReadCoils a q =>
    obtain ⟨ha, hq⟩ := h
    refine ⟨5, [1, a / 256 % 256, a % 256, q / 256 % 256, q % 256], rfl, rfl, ?_⟩
    rw [request_tryFrom_01]
    rw [show a / 256 % 256 * 256 + a % 256 = a from by omega,
      show q / 256 % 256 * 256 + q % 256 = q from by omega]
  | ReadDiscreteInputs a q =>
    obtain ⟨ha, hq⟩ := h
    refine ⟨5, [2, a / 256 % 256, a % 256, q / 256 % 256, q % 256], rfl, rfl, ?_⟩
    rw [request_tryFrom_02]
    rw [show a / 256 % 256 * 256 + a % 256 = a from by omega,
      show q / 256 % 256 * 256 + q % 256 = q from by omega]
  | ReadInputRegisters a q =>
    obtain ⟨ha, hq⟩ := h
    refine ⟨5, [4, a / 256 % 256, a % 256, q / 256 % 256, q % 256], rfl, rfl, ?_⟩
    rw [request_tryFrom_04]
    rw [show a / 256 % 256 * 256 + a % 256 = a from by omega,
      show q / 256 % 256 * 256 + q % 256 = q from by omega]
  | ReadHoldingRegisters a q =>
    obtain ⟨ha, hq⟩ := h
    refine ⟨5, [3, a / 256 % 256, a % 256, q / 256 % 256, q % 256], rfl, rfl, ?_⟩
    rw [request_tryFrom_03]
    rw [show a / 256 % 256 * 256 + a % 256 = a from by omega,
      show q / 256 % 256 * 256 + q % 256 = q from by omega]
  | WriteSingleRegister a q =>
    obtain ⟨ha, hq⟩ := h
    refine ⟨5, [6, a / 256 % 256, a % 256, q / 256 % 256, q % 256], rfl, rfl, ?_⟩
    rw [request_tryFrom_06]
    rw [show a / 256 % 256 * 256 + a % 256 = a from by omega,
      show q / 256 % 256 * 256 + q % 256 = q from by omega]
  | WriteSingleCoil a s =>
    have ha : a < 65536 := h
    cases s with
    | true =>
      refine ⟨5, [5, a / 256 % 256, a % 256, 0xFF, 0x00], rfl, rfl, ?_⟩
      rw [request_tryFrom_05 _ _ _ _ true (by decide)]
      rw [show a / 256 % 256 * 256 + a % 256 = a from by omega]
    | false =>
      refine ⟨5, [5, a / 256 % 256, a % 256, 0x00, 0x00], rfl, rfl, ?_⟩
      rw [request_tryFrom_05 _ _ _ _ false (by decide)]
      rw [show a / 256 % 256 * 256 + a % 256 = a from by omega]
  | WriteMultipleCoils a coils =>
    obtain ⟨ha, hq, hdata⟩ := h
    obtain ⟨data, q⟩ := coils
    simp only [Coils.packedLen] at hdata hq ⊢
    refine ⟨6 + (q + 7) / 8,
      [15, a / 256 % 256, a % 256, q / 256 % 256, q % 256, (q + 7) / 8 % 256] ++ data,
      rfl, ?_, ?_⟩
    · have hrep : List.replicate (6 + (q + 7) / 8) (0 : Nat)
          = [0, 0, 0, 0, 0, 0] ++ List.replicate ((q + 7) / 8) 0 := by
        rw [List.replicate_add]
        rfl
      simp only [Request.encode, Request.pduLen, Coils.packedLen, Coils.len]
      rw [if_neg (by simp), hrep]
      simp only [Request.functionCode, FunctionCode.value, writeU16]
      norm_num
      rw [if_neg (by omega)]
      rw [show (15 : Nat) :: a / 256 % 256 :: a % 256 :: q / 256 % 256 :: q % 256
          :: (q + 7) / 8 % 256 :: List.replicate ((q + 7) / 8) 0
          = [15, a / 256 % 256, a % 256, q / 256 % 256, q % 256, (q + 7) / 8 % 256]
            ++ List.replicate ((q + 7) / 8) 0 from by simp]
      rw [show (data.take ((q + 7) / 8)) = data from by rw [← hdata, List.take_length]]
      rw [writeBytes_six _ _ _ _ _ _ data _ (by simp [hdata])]
      rw [show (List.replicate ((q + 7) / 8) (0 : Nat)).drop data.length = [] from by
        apply List.drop_eq_nil_of_le; simp [hdata]]
      simp
    · have h0 : ([15, a / 256 % 256, a % 256, q / 256 % 256, q % 256, (q + 7) / 8 % 256]
          ++ data).getD 0 0 = 0x0F := by simp
      have hlen : ([15, a / 256 % 256, a % 256, q / 256 % 256, q % 256, (q + 7) / 8 % 256]
          ++ data).length = 6 + data.length := by simp; omega
      have hbc : ([15, a / 256 % 256, a % 256, q / 256 % 256, q % 256, (q + 7) / 8 % 256]
          ++ data).getD 5 0 = (q + 7) / 8 % 256 := by simp
      have hmod : (q + 7) / 8 % 256 ≤ (q + 7) / 8 := Nat.mod_le _ _
      have hdec := (request_tryFrom_0F _ h0 (by omega)).1 (by omega)
      rw [hdec]
      rw [show [15, a / 256 % 256, a % 256, q / 256 % 256, q % 256, (q + 7) / 8 % 256]
          ++ data = 15 :: a / 256 % 256 :: a % 256 :: q / 256 % 256 :: q % 256
          :: (q + 7) / 8 % 256 :: data from by simp]
      simp only [readU16, List.drop_succ_cons, List.drop_zero, List.getD_cons_succ,
        List.getD_cons_zero]
      rw [show a / 256 % 256 * 256 + a % 256 = a from by omega,
        show q / 256 % 256 * 256 + q % 256 = q from by omega]
  | WriteMultipleRegisters a words =>
    obtain ⟨ha, hq, hdata⟩ := h
    obtain ⟨data, q⟩ := words
    simp only at hdata hq ⊢
    refine ⟨6 + data.length,
      [16, a / 256 % 256, a % 256, q / 256 % 256, q % 256, q * 2 % 256] ++ data,
      rfl, ?_, ?_⟩
    · have hrep : List.replicate (6 + data.length) (0 : Nat)
          = [0, 0, 0, 0, 0, 0] ++ List.replicate data.length 0 := by
        rw [List.replicate_add]
        rfl
      simp only [Request.encode, Request.pduLen, Data.len]
      rw [if_neg (by simp), hrep]
      simp only [Request.functionCode, FunctionCode.value, writeU16]
      norm_num
      rw [show (16 : Nat) :: a / 256 % 256 :: a % 256 :: q / 256 % 256 :: q % 256
          :: q * 2 % 256 :: List.replicate data.length 0
          = [16, a / 256 % 256, a % 256, q / 256 % 256, q % 256, q * 2 % 256]
            ++ List.replicate data.length 0 from by simp]
      rw [writeBytes_six _ _ _ _ _ _ data _ (by simp)]
      rw [show (List.replicate data.length (0 : Nat)).drop data.length = [] from by
        apply List.drop_eq_nil_of_le; simp]
      simp
    · have h0 : ([16, a / 256 % 256, a % 256, q / 256 % 256, q % 256, q * 2 % 256]
          ++ data).getD 0 0 = 0x10 := by simp
      have hlen : ([16, a / 256 % 256, a % 256, q / 256 % 256, q % 256, q * 2 % 256]
          ++ data).length = 6 + data.length := by simp; omega
      have hbc : ([16, a / 256 % 256, a % 256, q / 256 % 256, q % 256, q * 2 % 256]
          ++ data).getD 5 0 = q * 2 % 256 := by simp
      have hdec := request_tryFrom_10 _ h0 (by omega) (by omega)
      rw [hdec, hbc]
      rw [show [16, a / 256 % 256, a % 256, q / 256 % 256, q % 256, q * 2 % 256]
          ++ data = 16 :: a / 256 % 256 :: a % 256 :: q / 256 % 256 :: q % 256
          :: q * 2 % 256 :: data from by simp]
      simp only [readU16, List.drop_succ_cons, List.drop_zero, List.getD_cons_succ,
        List.getD_cons_zero]
      rw [show a / 256 % 256 * 256 + a % 256 = a from by omega,
        show q / 256 % 256 * 256 + q % 256 = q from by omega,
        show data.take (q * 2 % 256) = data from by
          rw [show q * 2 % 256 = data.length from by omega, List.take_length]]
  | ReadWriteMultipleRegisters ra rq wa words =>
    obtain ⟨hra, hrq, hwa, hq, hdata⟩ := h
    obtain ⟨data, q⟩ := words
    simp only at hdata hq ⊢
    refine ⟨10 + data.length,
      [23, ra / 256 % 256, ra % 256, rq / 256 % 256, rq % 256, wa / 256 % 256, wa % 256,
        q / 256 % 256, q % 256, q * 2 % 256] ++ data,
      rfl, ?_, ?_⟩
    · have hrep : List.replicate (10 + data.length) (0 : Nat)
          = [0, 0, 0, 0, 0, 0, 0, 0, 0, 0] ++ List.replicate data.length 0 := by
        rw [List.replicate_add]
        rfl
      simp only [Request.encode, Request.pduLen, Data.len]
      rw [if_neg (by simp), hrep]
      simp only [Request.functionCode, FunctionCode.value, writeU16]
      norm_num
      rw [show (23 : Nat) :: ra / 256 % 256 :: ra % 256 :: rq / 256 % 256 :: rq % 256
          :: wa / 256 % 256 :: wa % 256 :: q / 256 % 256 :: q % 256
          :: q * 2 % 256 :: List.replicate data.length 0
          = [23, ra / 256 % 256, ra % 256, rq / 256 % 256, rq % 256, wa / 256 % 256,
              wa % 256, q / 256 % 256, q % 256, q * 2 % 256]
            ++ List.replicate data.length 0 from by simp]
      rw [writeBytes_ten _ _ _ _ _ _ _ _ _ _ data _ (by simp)]
      rw [show (List.replicate data.length (0 : Nat)).drop data.length = [] from by
        apply List.drop_eq_nil_of_le; simp]
      simp
    · have h0 : ([23, ra / 256 % 256, ra % 256, rq / 256 % 256, rq % 256, wa / 256 % 256,
          wa % 256, q / 256 % 256, q % 256, q * 2 % 256] ++ data).getD 0 0 = 0x17 := by
        simp
      have hlen : ([23, ra / 256 % 256, ra % 256, rq / 256 % 256, rq % 256, wa / 256 % 256,
          wa % 256, q / 256 % 256, q % 256, q * 2 % 256] ++ data).length
          = 10 + data.length := by simp; omega
      have hbc : ([23, ra / 256 % 256, ra % 256, rq / 256 % 256, rq % 256, wa / 256 % 256,
          wa % 256, q / 256 % 256, q % 256, q * 2 % 256] ++ data).getD 9 0
          = q * 2 % 256 := by simp
      have hdec := request_tryFrom_17 _ h0 (by omega) (by omega)
      rw [hdec, hbc]
      rw [show [23, ra / 256 % 256, ra % 256, rq / 256 % 256, rq % 256, wa / 256 % 256,
          wa % 256, q / 256 % 256, q % 256, q * 2 % 256] ++ data
          = 23 :: ra / 256 % 256 :: ra % 256 :: rq / 256 % 256 :: rq % 256 :: wa / 256 % 256
            :: wa % 256 :: q / 256 % 256 :: q % 256 :: q * 2 % 256 :: data from by simp]
      simp only [readU16, List.drop_succ_cons, List.drop_zero, List.getD_cons_succ,
        List.getD_cons_zero]
      rw [show ra / 256 % 256 * 256 + ra % 256 = ra from by omega,
        show rq / 256 % 256 * 256 + rq % 256 = rq from by omega,
        show wa / 256 % 256 * 256 + wa % 256 = wa from by omega,
        show q / 256 % 256 * 256 + q % 256 = q from by omega,
        show data.take (q * 2 % 256) = data from by
          rw [show q * 2 % 256 = data.length from by omega, List.take_length]]
  | ReadExceptionStatus => exact h.elim
  | Diagnostics sf words => exact h.elim
  | GetCommEventCounter => exact h.elim
  | GetCommEventLog => exact h.elim
  | ReportServerId => exact h.elim
  | Custom fc payload =>
    obtain ⟨c, rfl, hlt, hnew⟩ := h
    refine ⟨1 + payload.length, c :: payload, rfl, ?_, ?_⟩
    · have hrep : List.replicate (1 + payload.length) (0 : Nat)
          = [0] ++ List.replicate payload.length 0 := by
        rw [List.replicate_add]
        rfl
      simp only [Request.encode, Request.pduLen]
      rw [if_neg (by simp), hrep]
      simp only [Request.functionCode, FunctionCode.value]
      norm_num
      rw [show (c : Nat) :: List.replicate payload.length 0
          = [c] ++ List.replicate payload.length 0 from by simp]
      rw [writeBytes_one _ payload _ (by simp)]
      rw [show (List.replicate payload.length (0 : Nat)).drop payload.length = [] from by
        apply List.drop_eq_nil_of_le; simp]
      simp
    · exact request_tryFrom_custom c payload hnew hlt

/-- Witness for C1: the round trip at the concrete request
`WriteSingleRegister(7, 0xABCD)`. -/
theorem c1_roundtrip_witness :
    ∃ pduLen out, (Request.WriteSingleRegister 7 43981).pduLen = some pduLen ∧
      Request.encode (.WriteSingleRegister 7 43981) (List.replicate pduLen 0)
        = .ok (out, pduLen) ∧
      Request.tryFrom out = .ok (.WriteSingleRegister 7 43981) :=
  c1_roundtrip (.WriteSingleRegister 7 43981) ⟨by decide, by decide⟩
